import Mathlib

/-!
Verification of the newspaper-auditor job-queue subsystem against its
natural-language specification.

The repository ships the SvelteKit frontend (`frontend/src/lib/api/client.ts`,
`frontend/src/routes/...`); the FastAPI queue backend is specified but not part
of the frontend sources, so the Queue Store, QueueController, WorkerPool and
StatusView are modelled from the spec where noted.  All client-side
definitions are direct translations of the TypeScript source.
-/

/-- JSON values, as produced by `response.json()` and consumed by
`JSON.stringify`.  Numbers are modelled as integers: the repository only
serializes integer ids, counts and flags. -/
inductive Json where
  | null : Json
  | bool (b : Bool) : Json
  | num (n : Int) : Json
  | str (s : String) : Json
  | arr (elems : List Json) : Json
  | obj (fields : List (String × Json)) : Json
deriving Repr

mutual

/-- JavaScript string conversion of a value (as in a template literal):
String(null) is "null", arrays join their elements with commas with
null elements rendered empty, plain objects render as "[object Object]". -/
def jsToString : Json → String
  | Json.null => "null"
  | Json.bool b => cond b "true" "false"
  | Json.num n => toString n
  | Json.str s => s
  | Json.arr elems => jsListToString elems
  | Json.obj _ => "[object Object]"

def jsListToString : List Json → String
  | [] => ""
  | [Json.null] => ""
  | [e] => jsToString e
  | Json.null :: rest => "," ++ jsListToString rest
  | e :: rest => jsToString e ++ "," ++ jsListToString rest

end

/-- HTTP methods used by the client (`enum HttpMethod` in client.ts). -/
inductive HttpMethod where
  | GET
  | POST
  | PATCH
  | DELETE
deriving Repr, DecidableEq

/-- The observable shape of one HTTP request issued by the API client:
method, path relative to `API_BASE_URL`, and the JSON body when one is
serialized.  The constant `Content-Type: application/json` header added by
`request` is not modelled. -/
structure ApiRequest where
  method : HttpMethod
  path : String
  body : Option Json
deriving Repr

/-- `enqueueAuditJob` (client.ts): POST /jobs/audits with body `{ ids }`. -/
def enqueueAuditJob (ids : List Int) : ApiRequest :=
  { method := HttpMethod.POST
    path := "/jobs/audits"
    body := some (Json.obj [("ids", Json.arr (ids.map Json.num))]) }

/-- `enqueueLookupJob` (client.ts): POST /jobs/lookups with body `{ ids }`. -/
def enqueueLookupJob (ids : List Int) : ApiRequest :=
  { method := HttpMethod.POST
    path := "/jobs/lookups"
    body := some (Json.obj [("ids", Json.arr (ids.map Json.num))]) }

/-- `fetchActiveJobs` (client.ts): GET /jobs/active. -/
def fetchActiveJobs : ApiRequest :=
  { method := HttpMethod.GET, path := "/jobs/active", body := none }

/-- `fetchActiveJobItems` (client.ts): GET /jobs/active/items. -/
def fetchActiveJobItems : ApiRequest :=
  { method := HttpMethod.GET, path := "/jobs/active/items", body := none }

/-- `fetchJobHistoryItems` (client.ts): GET /jobs/history/items?limit=..&offset=.. -/
def fetchJobHistoryItems (limit offset : Int) : ApiRequest :=
  { method := HttpMethod.GET
    path := "/jobs/history/items?limit=" ++ toString limit ++ "&offset=" ++ toString offset
    body := none }

/-- `fetchJobHistory` (client.ts): GET /jobs/history?limit=..&offset=.. -/
def fetchJobHistory (limit offset : Int) : ApiRequest :=
  { method := HttpMethod.GET
    path := "/jobs/history?limit=" ++ toString limit ++ "&offset=" ++ toString offset
    body := none }

/-- `cancelJob` (client.ts): POST /jobs/{id}/cancel, no body. -/
def cancelJob (id : Int) : ApiRequest :=
  { method := HttpMethod.POST
    path := "/jobs/" ++ toString id ++ "/cancel"
    body := none }

/-- `clearJobQueue` (client.ts): DELETE /jobs/queue. -/
def clearJobQueue : ApiRequest :=
  { method := HttpMethod.DELETE, path := "/jobs/queue", body := none }

/-- `clearJobHistory` (client.ts): DELETE /jobs/history. -/
def clearJobHistory : ApiRequest :=
  { method := HttpMethod.DELETE, path := "/jobs/history", body := none }

/-- `fetchQueueState` (client.ts): GET /jobs/control. -/
def fetchQueueState : ApiRequest :=
  { method := HttpMethod.GET, path := "/jobs/control", body := none }

/-- `updateQueueState` (client.ts): POST /jobs/control with body `{ paused }`. -/
def updateQueueState (paused : Bool) : ApiRequest :=
  { method := HttpMethod.POST
    path := "/jobs/control"
    body := some (Json.obj [("paused", Json.bool paused)]) }

/-- Look up a top-level field of a request body, when the body is a JSON
object; used to state what a request does and does not carry. -/
def reqBodyField (r : ApiRequest) (key : String) : Option Json :=
  match r.body with
  | some (Json.obj fields) => fields.lookup key
  | _ => none

/-- The observable shape of one HTTP response as seen by the client:
numeric status, status text, and the parsed JSON body (`none` when the
body is not valid JSON, in which case `response.json()` rejects). -/
structure HttpResponse where
  status : Nat
  statusText : String
  body : Option Json
deriving Repr

/-- `Response.ok` of the fetch API: status in the range 200-299. -/
def respOk (r : HttpResponse) : Bool :=
  200 ≤ r.status && r.status < 300

/-- The `detail` member of the parsed body when, as in
`typeof data === 'object' && data && 'detail' in data`, the body parsed to a
non-null object with a `detail` key; `none` in every other case. -/
def detailOf : Option Json → Option Json
  | some (Json.obj fields) => fields.lookup "detail"
  | _ => none

/-- `safeErrorMessage` (client.ts): a total function from responses to error
strings.  The `try`/`catch` around `response.json()` is modelled by the body
already being `Option Json`; a parse failure falls through to the
status-text form. -/
def safeErrorMessage (r : HttpResponse) : String :=
  match detailOf r.body with
  | some d => "API error " ++ toString r.status ++ ": " ++ jsToString d
  | none => "API error " ++ toString r.status ++ ": " ++ r.statusText

/-- Errors with which a `request` call can reject: the `Error(message)`
thrown on a non-ok status, and the rejection of `response.json()` when an
ok response has a body that is not valid JSON. -/
inductive RequestError where
  | httpError (message : String)
  | jsonParseError
deriving Repr, DecidableEq

/-- `request` (client.ts): throws `Error(safeErrorMessage response)` when the
response is not ok, otherwise returns `response.json()` — which itself
rejects when the body is not valid JSON. -/
def request (r : HttpResponse) : Except RequestError Json :=
  if respOk r then
    match r.body with
    | some data => Except.ok data
    | none => Except.error RequestError.jsonParseError
  else
    Except.error (RequestError.httpError (safeErrorMessage r))

/-- Job type of a batch request: audit or lookup (spec section 3). -/
inductive JobType where
  | audit
  | lookup
deriving Repr, DecidableEq

/-- JobItem status (spec sections 3 and 4.3). -/
inductive ItemStatus where
  | pending
  | running
  | completed
  | failed
  | canceled
deriving Repr, DecidableEq

/-- Terminal statuses: completed, failed, canceled (spec section 4.3). -/
def ItemStatus.isTerminal : ItemStatus → Bool
  | ItemStatus.completed => true
  | ItemStatus.failed => true
  | ItemStatus.canceled => true
  | _ => false

/-- Modelled from the spec: the JobItem row of the Queue Store (spec
section 3).  The backend implementing it is not among the frontend sources;
the timestamp fields (enqueued_at, started_at, completed_at) are outside the
modelled fragment, enqueue order is the list order of `Store.items`. -/
structure JobItem where
  id : Nat
  job_id : Nat
  paper_id : Nat
  job_type : JobType
  status : ItemStatus
  result : Option String
  error : Option String
deriving Repr, DecidableEq

/-- Modelled from the spec: the Job row of the Queue Store (spec section 3).
The derived status and the timestamps are outside the modelled fragment. -/
structure Job where
  id : Nat
  job_type : JobType
  total_count : Nat
  processed_count : Nat
deriving Repr, DecidableEq

/-- Modelled from the spec: the whole Queue Store — Jobs, JobItems (in
enqueue order) and the global pause flag (spec sections 2 and 3). -/
structure Store where
  jobs : List Job
  items : List JobItem
  paused : Bool
deriving Repr, DecidableEq

/-- The empty store at first startup: no jobs, no items, not paused. -/
def initStore : Store :=
  { jobs := [], items := [], paused := false }

/-- A fresh Job id: one more than the largest id in use. -/
def freshJobID (s : Store) : Nat :=
  (s.jobs.foldr (fun j acc => max j.id acc) 0) + 1

/-- A fresh JobItem id base: one more than the largest item id in use. -/
def freshItemID (s : Store) : Nat :=
  (s.items.foldr (fun it acc => max it.id acc) 0) + 1

/-- Modelled from the spec: the `pending` JobItems created for one enqueue
call, one per paper id, in the order given (spec section 4.1). -/
def enqueueItems (jt : JobType) (pids : List Nat) (s : Store) : List JobItem :=
  s.items ++ pids.enum.map (fun p =>
    { id := freshItemID s + p.1
      job_id := freshJobID s
      paper_id := p.2
      job_type := jt
      status := ItemStatus.pending
      result := none
      error := none })

/-- Modelled from the spec: `Enqueue(jobType, paperIDs) -> Job` — rejects an
empty paper id list as a synchronous validation error with no state mutated;
otherwise creates one Job with total_count = len(paperIDs) and one pending
JobItem per id, atomically (spec sections 4.1 and 7). -/
def enqueueStore (jt : JobType) (pids : List Nat) (s : Store) :
    Except String (Store × Job) :=
  if pids.isEmpty then
    Except.error "paper_ids must not be empty"
  else
    let job : Job :=
      { id := freshJobID s, job_type := jt
        total_count := pids.length, processed_count := 0 }
    Except.ok ({ s with jobs := s.jobs ++ [job], items := enqueueItems jt pids s }, job)

/-- The per-item effect of `CancelJob(jobID)`: a pending item of that job
becomes canceled, every other item is untouched (spec section 4.1). -/
def cancelItemF (jobID : Nat) (it : JobItem) : JobItem :=
  if it.job_id == jobID && it.status == ItemStatus.pending then
    { it with status := ItemStatus.canceled }
  else
    it

/-- Modelled from the spec: `CancelJob(jobID) -> canceledItems` — transitions
every pending item of the job to canceled, leaves running and terminal items
untouched, and returns the number of items canceled (spec section 4.1). -/
def cancelJobStore (jobID : Nat) (s : Store) : Store × Nat :=
  ({ s with items := s.items.map (cancelItemF jobID) },
   s.items.countP (fun it => it.job_id == jobID && it.status == ItemStatus.pending))

/-- The per-item effect of `ClearQueue()`: any pending item becomes canceled,
every other item is untouched (spec section 4.1). -/
def clearItemF (it : JobItem) : JobItem :=
  if it.status == ItemStatus.pending then
    { it with status := ItemStatus.canceled }
  else
    it

/-- Modelled from the spec: `ClearQueue() -> (canceledJobs, canceledItems)` —
cancels every pending item across all jobs; running items are unaffected.
canceledJobs counts the jobs that had at least one pending item (spec
section 4.1). -/
def clearQueueStore (s : Store) : Store × Nat × Nat :=
  ({ s with items := s.items.map clearItemF },
   (s.jobs.filter (fun j =>
      s.items.any (fun it => it.job_id == j.id && it.status == ItemStatus.pending))).length,
   s.items.countP (fun it => it.status == ItemStatus.pending))

/-- A Job all of whose items are terminal (no pending or running item). -/
def jobFullyTerminal (s : Store) (j : Job) : Bool :=
  !(s.items.any (fun it => it.job_id == j.id && !(it.status.isTerminal)))

/-- Modelled from the spec: `ClearHistory() -> deleted` — deletes the Jobs
that are fully terminal together with their JobItems; active work is never
touched (spec section 4.1). -/
def clearHistoryStore (s : Store) : Store × Nat :=
  let keptJobs := s.jobs.filter (fun j => !(jobFullyTerminal s j))
  let deleted := s.jobs.length - keptJobs.length
  ({ s with
      jobs := keptJobs
      items := s.items.filter (fun it => keptJobs.any (fun j => j.id == it.job_id)) },
   deleted)

/-- Modelled from the spec: `SetPaused(bool) -> QueueState` — flips the
global flag and returns the resulting flag (spec section 4.1). -/
def setPausedStore (b : Bool) (s : Store) : Store × Bool :=
  ({ s with paused := b }, b)

/-- Modelled from the spec: `GetQueueState() -> QueueState` (spec
section 4.1). -/
def getQueueStateStore (s : Store) : Bool :=
  s.paused

/-- No JobItem with this paper id is currently running anywhere in the
store — the per-record exclusivity guard of `ClaimNextItem()` (spec
section 4.2). -/
def noRunningConflict (items : List JobItem) (pid : Nat) : Bool :=
  !(items.any (fun o => o.status == ItemStatus.running && o.paper_id == pid))

/-- A pending item whose paper id has no running sibling: eligible for the
next claim (spec section 4.2). -/
def claimEligible (items : List JobItem) (it : JobItem) : Bool :=
  it.status == ItemStatus.pending && noRunningConflict items it.paper_id

/-- The per-item effect of crash recovery: a running item orphaned by a
previous crash is reset to pending (spec section 5). -/
def recoverItemF (it : JobItem) : JobItem :=
  if it.status == ItemStatus.running then
    { it with status := ItemStatus.pending }
  else
    it

/-- Increment the processed counter of the Job owning a finished item
(spec section 4.2). -/
def bumpProcessed (jobID : Nat) (jobs : List Job) : List Job :=
  jobs.map (fun j =>
    if j.id == jobID then { j with processed_count := j.processed_count + 1 } else j)

/-- Modelled from the spec: the transitions of the queue subsystem — enqueue,
atomic claim (oldest eligible pending item flips to running, only when not
paused), finish (running item reaches completed or failed and the parent Job
counter is bumped), cancel, clear-queue, clear-history, pause toggling, and
crash recovery (spec sections 4.1, 4.2, 4.3 and 5). -/
inductive Step : Store → Store → Prop where
  | enqueue (jt : JobType) (pids : List Nat) (s s2 : Store) (job : Job) :
      enqueueStore jt pids s = Except.ok (s2, job) →
      Step s s2
  | claim (s : Store) (l1 l2 : List JobItem) (x : JobItem) :
      s.paused = false →
      s.items = l1 ++ x :: l2 →
      x.status = ItemStatus.pending →
      noRunningConflict s.items x.paper_id = true →
      (∀ y ∈ l1, claimEligible s.items y = false) →
      Step s { s with items := l1 ++ { x with status := ItemStatus.running } :: l2 }
  | finish (s : Store) (l1 l2 : List JobItem) (x : JobItem)
      (newStatus : ItemStatus) (res err : Option String) :
      s.items = l1 ++ x :: l2 →
      x.status = ItemStatus.running →
      (newStatus = ItemStatus.completed ∨ newStatus = ItemStatus.failed) →
      Step s { s with
        items := l1 ++ { x with status := newStatus, result := res, error := err } :: l2
        jobs := bumpProcessed x.job_id s.jobs }
  | cancel (jobID : Nat) (s : Store) :
      Step s (cancelJobStore jobID s).1
  | clearQueue (s : Store) :
      Step s (clearQueueStore s).1
  | clearHistory (s : Store) :
      Step s (clearHistoryStore s).1
  | setPaused (b : Bool) (s : Store) :
      Step s (setPausedStore b s).1
  | recover (s : Store) :
      Step s { s with items := s.items.map recoverItemF }

/-- A store state the system can actually be in: reachable from the empty
store by queue transitions. -/
def Reachable (s : Store) : Prop :=
  Relation.ReflTransGen Step initStore s

/-- How many running items reference a given paper id. -/
def runningCountFor (pid : Nat) (items : List JobItem) : Nat :=
  items.countP (fun it => it.status == ItemStatus.running && it.paper_id == pid)

/-- The cross-job exclusivity invariant: for every paper id, at most one
JobItem in the whole store is running (spec sections 3 and 8). -/
def ExclusiveItems (items : List JobItem) : Prop :=
  ∀ pid : Nat, runningCountFor pid items ≤ 1

/-- A non-terminal item: pending or running (spec section 4.4). -/
def itemNonTerminal (it : JobItem) : Bool :=
  !(it.status.isTerminal)

/-- Modelled from the spec: `ActiveJobs()` — jobs with at least one
non-terminal item (spec section 4.4). -/
def activeJobsOf (s : Store) : List Job :=
  s.jobs.filter (fun j => s.items.any (fun it => it.job_id == j.id && itemNonTerminal it))

/-- Modelled from the spec: `ActiveItems()` — all non-terminal items (spec
section 4.4). -/
def activeItemsOf (s : Store) : List JobItem :=
  s.items.filter itemNonTerminal

/-- Modelled from the spec: `HistoryItems(limit, offset)` — terminal items
only; the completed_at ordering is outside the modelled fragment, the page
window is taken over the terminal items in store order (spec section 4.4). -/
def historyItemsOf (limit offset : Nat) (s : Store) : List JobItem :=
  ((s.items.filter (fun it => it.status.isTerminal)).drop offset).take limit

/-- Modelled from the spec: `HistoryJobs(limit, offset)` — fully terminal
jobs only, windowed the same way (spec section 4.4). -/
def historyJobsOf (limit offset : Nat) (s : Store) : List Job :=
  ((s.jobs.filter (fun j => jobFullyTerminal s j)).drop offset).take limit

/-- One StatusView query (spec section 4.4). -/
inductive StatusQuery where
  | activeJobsQ
  | activeItemsQ
  | historyItemsQ (limit offset : Nat)
  | historyJobsQ (limit offset : Nat)
deriving Repr, DecidableEq

/-- The answer of a StatusView query: a list of jobs or a list of items. -/
inductive QueryAnswer where
  | jobsA (l : List Job)
  | itemsA (l : List JobItem)
deriving Repr, DecidableEq

/-- Modelled from the spec: running one StatusView query against the Queue
Store — a pure read returning its answer together with the store it leaves
behind (spec section 4.4). -/
def runStatusQuery (q : StatusQuery) (s : Store) : QueryAnswer × Store :=
  match q with
  | StatusQuery.activeJobsQ => (QueryAnswer.jobsA (activeJobsOf s), s)
  | StatusQuery.activeItemsQ => (QueryAnswer.itemsA (activeItemsOf s), s)
  | StatusQuery.historyItemsQ limit offset =>
      (QueryAnswer.itemsA (historyItemsOf limit offset s), s)
  | StatusQuery.historyJobsQ limit offset =>
      (QueryAnswer.jobsA (historyJobsOf limit offset s), s)

/-- Repeating StatusView queries any number of times: the store each query
leaves behind feeds the next one. -/
def runStatusQueries (qs : List StatusQuery) (s : Store) : Store :=
  match qs with
  | [] => s
  | q :: rest => runStatusQueries rest (runStatusQuery q s).2

/-- The `{paused}` body returned by the control endpoint
(`JobQueueState` on the client). -/
structure JobQueueState where
  paused : Bool
deriving Repr, DecidableEq

/-- Modelled from the spec: GET control — read of the pause flag (spec
sections 4.1 and 6). -/
def controlGet (s : Store) : JobQueueState :=
  { paused := s.paused }

/-- Modelled from the spec: POST control {paused} — sets the flag and
returns the resulting `{paused}` (spec sections 4.1 and 6). -/
def controlPost (b : Bool) (s : Store) : Store × JobQueueState :=
  ({ s with paused := b }, { paused := b })

/-- `toggleQueuePause` (+layout.svelte): the panel POSTs the negation of the
paused flag it displays and adopts the `paused` value of the response as the
new displayed state.  Returns (new displayed value, store after the call). -/
def toggleQueuePause (displayed : Bool) (s : Store) : Bool × Store :=
  let posted := controlPost (!displayed) s
  (posted.2.paused, posted.1)

/-- The `{canceled_jobs, canceled_items}` response of DELETE /jobs/queue as
decoded by `clearJobQueue` (client.ts). -/
structure ClearQueueResult where
  canceled_jobs : Nat
  canceled_items : Nat
deriving Repr, DecidableEq

/-- The `{deleted}` response of DELETE /jobs/history as decoded by
`clearJobHistory` (client.ts). -/
structure ClearHistoryResult where
  deleted : Nat
deriving Repr, DecidableEq

/-- Pluralization used by the queue panel notice:
`job${n === 1 ? '' : 's'}` (+layout.svelte). -/
def pluralS (n : Nat) : String :=
  if n == 1 then "" else "s"

/-- The notice text `handleClearQueue` (+layout.svelte) shows when at least
one count returned by DELETE /jobs/queue is nonzero. -/
def queueClearedMessage (jobs items : Nat) : String :=
  "Queue cleared (" ++ toString jobs ++ " job" ++ pluralS jobs ++ ", " ++
    toString items ++ " item" ++ pluralS items ++ ")."

/-- `handleClearQueue` (+layout.svelte): the notice shown to the operator
after a clear-queue call — the returned counts when
`result.canceled_jobs || result.canceled_items` is truthy, a fixed
no-op notice otherwise. -/
def handleClearQueueNotice (r : ClearQueueResult) : String :=
  if r.canceled_jobs != 0 || r.canceled_items != 0 then
    queueClearedMessage r.canceled_jobs r.canceled_items
  else
    "No queued items to clear."

/-- The requests `refreshQueue` (+layout.svelte) issues on every poll tick:
active jobs, active items and the queue state, in one Promise.all. -/
def refreshQueueRequests : List ApiRequest :=
  [fetchActiveJobs, fetchActiveJobItems, fetchQueueState]

/-- The requests `loadHistory` (history/+page.svelte) issues on every poll
tick: the first 200 history items. -/
def loadHistoryRequests : List ApiRequest :=
  [fetchJobHistoryItems 200 0]

/-- The interval passed to setInterval in the layout queue panel
(+layout.svelte, onMount). -/
def layoutPollIntervalMs : Nat := 5000

/-- The interval passed to setInterval on the history page
(history/+page.svelte, onMount). -/
def historyPollIntervalMs : Nat := 10000

/-- The poll-timer state of a component: `some interval` while an interval
timer is installed, `none` after it is cleared. -/
structure TimerState where
  pollTimer : Option Nat
deriving Repr, DecidableEq

/-- onMount of the layout queue panel: installs the 5000 ms interval timer
(+layout.svelte). -/
def layoutOnMount : TimerState :=
  { pollTimer := some layoutPollIntervalMs }

/-- onMount of the history page: installs the 10000 ms interval timer
(history/+page.svelte). -/
def historyOnMount : TimerState :=
  { pollTimer := some historyPollIntervalMs }

/-- onDestroy of either component: `if (pollTimer) clearInterval(pollTimer)`
— the interval timer is cleared, so it never fires again. -/
def onDestroyTimer (_t : TimerState) : TimerState :=
  { pollTimer := none }

/-- The requests a timer tick causes: the component's poll callback runs
while the timer is installed; a cleared timer never fires. -/
def timerTick (t : TimerState) (callbackRequests : List ApiRequest) : List ApiRequest :=
  match t.pollTimer with
  | some _ => callbackRequests
  | none => []

/-- `handleBatchAudit` (papers/+page.svelte): returns early when the
selection is empty, otherwise enqueues one audit job for the selected ids —
the request issued, if any. -/
def handleBatchAudit (selectedIds : List Int) : Option ApiRequest :=
  if selectedIds.length == 0 then
    none
  else
    some (enqueueAuditJob selectedIds)

/-- `handleBatchLookup` (papers/+page.svelte): returns early when the
selection is empty, otherwise enqueues one lookup job for the selected
ids. -/
def handleBatchLookup (selectedIds : List Int) : Option ApiRequest :=
  if selectedIds.length == 0 then
    none
  else
    some (enqueueLookupJob selectedIds)

/-- The `JobSummary` decoded from the job endpoints, with the fields the
queue panel consumes (+layout.svelte): id, job_type, status, total_count,
processed_count. -/
structure JobSummary where
  id : Int
  job_type : JobType
  status : String
  total_count : Int
  processed_count : Int
deriving Repr, DecidableEq

/-- The cells the layout queue panel renders for one active JobSummary
(+layout.svelte): type label, `#id`, status, and `processed/total`. -/
def queueJobCells (j : JobSummary) : List String :=
  [cond (j.job_type == JobType.audit) "Audit" "Lookup",
   "#" ++ toString j.id,
   j.status,
   toString j.processed_count ++ "/" ++ toString j.total_count]

/-- The Job created by enqueueing an audit batch for papers 7 and 9 on the
empty store. -/
def jobC1 : Job :=
  { id := 1, job_type := JobType.audit, total_count := 2, processed_count := 0 }

/-- The pending item for paper 7 of that batch. -/
def itemC1a : JobItem :=
  { id := 1, job_id := 1, paper_id := 7, job_type := JobType.audit
    status := ItemStatus.pending, result := none, error := none }

/-- The pending item for paper 9 of that batch. -/
def itemC1b : JobItem :=
  { id := 2, job_id := 1, paper_id := 9, job_type := JobType.audit
    status := ItemStatus.pending, result := none, error := none }

/-- The store right after that enqueue. -/
def storeAfterEnqueue : Store :=
  { jobs := [jobC1], items := [itemC1a, itemC1b], paused := false }

/-- The store after a worker claims the item for paper 7. -/
def storeAfterClaim : Store :=
  { jobs := [jobC1]
    items := [{ itemC1a with status := ItemStatus.running }, itemC1b]
    paused := false }


theorem runningCountFor_map_le (pid : Nat) {f : JobItem → JobItem}
    (hf : ∀ it : JobItem, (f it).status = ItemStatus.running → f it = it)
    (l : List JobItem) :
    runningCountFor pid (l.map f) ≤ runningCountFor pid l := by
  unfold runningCountFor
  rw [List.countP_map]
  refine List.countP_mono_left ?_
  intro x _ hpx
  have hpfx : ((f x).status == ItemStatus.running && (f x).paper_id == pid) = true := hpx
  rw [Bool.and_eq_true, beq_iff_eq, beq_iff_eq] at hpfx
  have hfix : f x = x := hf x hpfx.1
  show (x.status == ItemStatus.running && x.paper_id == pid) = true
  rw [← hfix]
  rw [Bool.and_eq_true, beq_iff_eq, beq_iff_eq]
  exact hpfx

theorem cancelItemF_running_fix (jobID : Nat) (it : JobItem)
    (h : (cancelItemF jobID it).status = ItemStatus.running) :
    cancelItemF jobID it = it := by
  unfold cancelItemF at h ⊢
  split at h
  · simp at h
  · rename_i hcond
    rw [if_neg hcond]

theorem clearItemF_running_fix (it : JobItem)
    (h : (clearItemF it).status = ItemStatus.running) :
    clearItemF it = it := by
  unfold clearItemF at h ⊢
  split at h
  · simp at h
  · rename_i hcond
    rw [if_neg hcond]

theorem recoverItemF_running_fix (it : JobItem)
    (h : (recoverItemF it).status = ItemStatus.running) :
    recoverItemF it = it := by
  unfold recoverItemF at h ⊢
  split at h
  · simp at h
  · rename_i hcond
    rw [if_neg hcond]

theorem runningCountFor_enqueueItems (pid : Nat) (jt : JobType)
    (pids : List Nat) (s : Store) :
    runningCountFor pid (enqueueItems jt pids s) = runningCountFor pid s.items := by
  unfold enqueueItems runningCountFor
  rw [List.countP_append]
  have hz : (pids.enum.map fun p =>
      ({ id := freshItemID s + p.1, job_id := freshJobID s, paper_id := p.2
         job_type := jt, status := ItemStatus.pending
         result := none, error := none } : JobItem)).countP
      (fun it => it.status == ItemStatus.running && it.paper_id == pid) = 0 := by
    rw [List.countP_eq_zero]
    intro a ha
    rw [List.mem_map] at ha
    obtain ⟨p, -, rfl⟩ := ha
    simp
  rw [hz]
  omega

theorem replace_nonrunning_le (pid : Nat) (l1 l2 : List JobItem) (x x2 : JobItem)
    (hx2 : x2.status ≠ ItemStatus.running) :
    runningCountFor pid (l1 ++ x2 :: l2) ≤ runningCountFor pid (l1 ++ x :: l2) := by
  unfold runningCountFor
  rw [List.countP_append, List.countP_append, List.countP_cons, List.countP_cons]
  have hfalse : (x2.status == ItemStatus.running && x2.paper_id == pid) = false := by
    rw [Bool.and_eq_false_iff]
    left
    rw [beq_eq_false_iff_ne]
    exact hx2
  rw [hfalse]
  simp only [Bool.false_eq_true, if_false]
  split <;> omega

theorem claim_preserves (pid : Nat) (l1 l2 : List JobItem) (x : JobItem)
    (hconf : noRunningConflict (l1 ++ x :: l2) x.paper_id = true)
    (hold : runningCountFor pid (l1 ++ x :: l2) ≤ 1) :
    runningCountFor pid (l1 ++ { x with status := ItemStatus.running } :: l2) ≤ 1 := by
  unfold noRunningConflict at hconf
  rw [Bool.not_eq_true', List.any_eq_false] at hconf
  by_cases hpid : x.paper_id = pid
  · subst hpid
    have h1 : l1.countP
        (fun it => it.status == ItemStatus.running && it.paper_id == x.paper_id) = 0 :=
      List.countP_eq_zero.mpr (fun a ha => hconf a (List.mem_append_left _ ha))
    have h2 : l2.countP
        (fun it => it.status == ItemStatus.running && it.paper_id == x.paper_id) = 0 :=
      List.countP_eq_zero.mpr
        (fun a ha => hconf a (List.mem_append_right _ (List.mem_cons_of_mem _ ha)))
    unfold runningCountFor
    rw [List.countP_append, List.countP_cons, h1, h2]
    split <;> omega
  · unfold runningCountFor at hold ⊢
    rw [List.countP_append, List.countP_cons] at hold ⊢
    have hfalse : (({ x with status := ItemStatus.running } : JobItem).status ==
        ItemStatus.running &&
        ({ x with status := ItemStatus.running } : JobItem).paper_id == pid) = false := by
      simp only [Bool.and_eq_false_iff, beq_eq_false_iff_ne]
      right
      exact hpid
    rw [hfalse]
    simp only [Bool.false_eq_true, if_false]
    split at hold <;> omega

theorem step_preserves_exclusive {s s2 : Store} (hstep : Step s s2)
    (h : ExclusiveItems s.items) : ExclusiveItems s2.items := by
  cases hstep with
  | enqueue jt pids s3 s4 job henq =>
    unfold enqueueStore at henq
    split at henq
    · exact absurd henq (by simp)
    · injection henq with h1
      injection h1 with hst hjob
      subst hst
      intro pid
      show runningCountFor pid (enqueueItems jt pids s) ≤ 1
      rw [runningCountFor_enqueueItems]
      exact h pid
  | claim s3 l1 l2 x hp hitems hpend hconf hfifo =>
    intro pid
    rw [hitems] at hconf
    have hold : runningCountFor pid (l1 ++ x :: l2) ≤ 1 := by
      rw [← hitems]; exact h pid
    exact claim_preserves pid l1 l2 x hconf hold
  | finish s3 l1 l2 x newStatus res err hitems hrun hterm =>
    intro pid
    have hx2 : ({ x with status := newStatus, result := res, error := err } : JobItem).status
        ≠ ItemStatus.running := by
      show newStatus ≠ ItemStatus.running
      rcases hterm with rfl | rfl <;> simp
    have hold : runningCountFor pid (l1 ++ x :: l2) ≤ 1 := by
      rw [← hitems]; exact h pid
    exact le_trans (replace_nonrunning_le pid l1 l2 x _ hx2) hold
  | cancel jobID s3 =>
    intro pid
    show runningCountFor pid (s.items.map (cancelItemF jobID)) ≤ 1
    exact le_trans
      (runningCountFor_map_le pid (cancelItemF_running_fix jobID) s.items) (h pid)
  | clearQueue s3 =>
    intro pid
    show runningCountFor pid (s.items.map clearItemF) ≤ 1
    exact le_trans (runningCountFor_map_le pid clearItemF_running_fix s.items) (h pid)
  | clearHistory s3 =>
    intro pid
    show runningCountFor pid
      (s.items.filter fun it =>
        (s.jobs.filter (fun j => !(jobFullyTerminal s j))).any (fun j => j.id == it.job_id)) ≤ 1
    refine le_trans ?_ (h pid)
    unfold runningCountFor
    exact (List.filter_sublist s.items).countP_le _
  | setPaused b s3 =>
    exact h
  | recover s3 =>
    intro pid
    show runningCountFor pid (s.items.map recoverItemF) ≤ 1
    exact le_trans (runningCountFor_map_le pid recoverItemF_running_fix s.items) (h pid)


theorem zip_map_countP (f : JobItem → JobItem) (q : JobItem × JobItem → Bool)
    (l : List JobItem) :
    (l.zip (l.map f)).countP q = l.countP (fun a => q (a, f a)) := by
  induction l with
  | nil => rfl
  | cons a l ih => simp [List.countP_cons, ih]

theorem cancelItemF_cases (jobID : Nat) (it : JobItem) :
    (it.job_id = jobID ∧ it.status = ItemStatus.pending →
      cancelItemF jobID it = { it with status := ItemStatus.canceled }) ∧
    (¬(it.job_id = jobID ∧ it.status = ItemStatus.pending) →
      cancelItemF jobID it = it) := by
  unfold cancelItemF
  split
  · rename_i hcond
    simp only [Bool.and_eq_true, beq_iff_eq] at hcond
    exact ⟨fun _ => rfl, fun hn => absurd hcond hn⟩
  · rename_i hcond
    simp only [Bool.and_eq_true, beq_iff_eq] at hcond
    exact ⟨fun hc => absurd hc hcond, fun _ => rfl⟩

theorem cancelItemF_changed_iff (jobID : Nat) (it : JobItem) :
    (cancelItemF jobID it ≠ it) ↔
      (it.job_id = jobID ∧ it.status = ItemStatus.pending) := by
  constructor
  · intro hne
    by_contra hno
    exact hne ((cancelItemF_cases jobID it).2 hno)
  · intro hc heq
    have hstat := congrArg JobItem.status ((cancelItemF_cases jobID it).1 hc ▸ heq)
    rw [hc.2] at hstat
    exact ItemStatus.noConfusion hstat

/-- Claim C1: for every paper_id and at every instant — every store state
reachable by the queue subsystem's transitions — at most one JobItem whose
paper_id equals that id is in state running, across all Jobs in the whole
store; consequently the Operation Runner (RunAudit/RunLookup) is never
driven concurrently for the same paper_id, since a worker only runs an item
it has claimed into running state. -/
theorem claim_C1_running_exclusivity (s : Store) (h : Reachable s) :
    ExclusiveItems s.items := by
  unfold Reachable at h
  induction h with
  | refl =>
    intro pid
    simp [initStore, runningCountFor]
  | tail hR hstep ih =>
    exact step_preserves_exclusive hstep ih

/-- Witness for C1: a concrete reachable store — empty store, enqueue an
audit batch for papers 7 and 9, then a worker claims the item for paper 7 —
satisfies the exclusivity invariant. -/
theorem claim_C1_witness : ExclusiveItems storeAfterClaim.items := by
  have h1 : Step initStore storeAfterEnqueue :=
    Step.enqueue JobType.audit [7, 9] initStore storeAfterEnqueue jobC1 rfl
  have h2 : Step storeAfterEnqueue storeAfterClaim :=
    Step.claim storeAfterEnqueue [] [itemC1b] itemC1a rfl rfl rfl rfl
      (by intro y hy; simp at hy)
  exact claim_C1_running_exclusivity storeAfterClaim
    (Relation.ReflTransGen.tail (Relation.ReflTransGen.tail Relation.ReflTransGen.refl h1) h2)

/-- Claim C2 counterexample: the batch-enqueue request for paper id 1 does
not carry the ids under a `paper_ids` field, nor the job type in the body:
the ids travel under the field `ids` and nothing else is in the body. -/
theorem claim_C2_counterexample :
    reqBodyField (enqueueAuditJob [1]) "paper_ids" = none ∧
    reqBodyField (enqueueAuditJob [1]) "job_type" = none ∧
    reqBodyField (enqueueAuditJob [1]) "ids" = some (Json.arr [Json.num 1]) :=
  ⟨rfl, rfl, rfl⟩

/-- Claim C2 (amended): for every list of paper ids, a batch enqueue is a
single POST whose JSON body carries the paper ids under the field `ids`;
the job type is selected by the endpoint path (/jobs/audits vs
/jobs/lookups), not by a body field; and the response is decoded as a
JobSummary whose id, job_type, status, total_count and processed_count the
queue panel renders. -/
theorem claim_C2_enqueue_contract :
    (∀ ids : List Int,
      enqueueAuditJob ids =
        { method := HttpMethod.POST, path := "/jobs/audits"
          body := some (Json.obj [("ids", Json.arr (ids.map Json.num))]) } ∧
      enqueueLookupJob ids =
        { method := HttpMethod.POST, path := "/jobs/lookups"
          body := some (Json.obj [("ids", Json.arr (ids.map Json.num))]) }) ∧
    (∀ j : JobSummary,
      queueJobCells j =
        [cond (j.job_type == JobType.audit) "Audit" "Lookup",
         "#" ++ toString j.id, j.status,
         toString j.processed_count ++ "/" ++ toString j.total_count]) :=
  ⟨fun _ => ⟨rfl, rfl⟩, fun _ => rfl⟩

/-- Claim C3: CancelJob(jobID) transitions every pending item of the job to
canceled and leaves items already running or terminal untouched (stated
pointwise over the store's items); the §4.1 result is the integer count of
the items actually canceled — exactly the number of items whose state the
call changed; and the §6 transport for the same operation is a bare POST to
/jobs/{id}/cancel whose response is decoded as a JobSummary. -/
theorem claim_C3_cancel_semantics (jobID : Nat) (s : Store) :
    List.Forall₂
      (fun old new =>
        (old.job_id = jobID ∧ old.status = ItemStatus.pending →
          new = { old with status := ItemStatus.canceled }) ∧
        (¬(old.job_id = jobID ∧ old.status = ItemStatus.pending) → new = old))
      s.items ((cancelJobStore jobID s).1).items ∧
    (cancelJobStore jobID s).2 =
      (s.items.zip ((cancelJobStore jobID s).1).items).countP
        (fun p => decide (p.2 ≠ p.1)) ∧
    cancelJob (Int.ofNat jobID) =
      { method := HttpMethod.POST
        path := "/jobs/" ++ toString (Int.ofNat jobID) ++ "/cancel"
        body := none } := by
  refine ⟨?_, ?_, rfl⟩
  · show List.Forall₂ _ s.items (s.items.map (cancelItemF jobID))
    rw [List.forall₂_map_right_iff]
    rw [List.forall₂_same]
    intro x _
    exact cancelItemF_cases jobID x
  · show (s.items.countP fun it => it.job_id == jobID && it.status == ItemStatus.pending) = _
    have hitems : ((cancelJobStore jobID s).1).items = s.items.map (cancelItemF jobID) := rfl
    rw [hitems, zip_map_countP]
    refine List.countP_congr ?_
    intro x _
    rw [Bool.and_eq_true, beq_iff_eq, beq_iff_eq, decide_eq_true_eq]
    exact (cancelItemF_changed_iff jobID x).symm

/-- Claim C4: enqueue rejects an empty paper id list as a synchronous
validation error with no state mutated — the page handlers issue no request
at all for an empty selection, and the controller's Enqueue returns a
validation error (and hence no Job) on an empty list. -/
theorem claim_C4_empty_enqueue_rejected :
    handleBatchAudit [] = none ∧
    handleBatchLookup [] = none ∧
    (∀ (jt : JobType) (s : Store),
      enqueueStore jt [] s = Except.error "paper_ids must not be empty") :=
  ⟨rfl, rfl, fun _ _ => rfl⟩

/-- Claim C5: every StatusView query is a pure read — each of the four
client calls is an HTTP GET with no request body, and running any sequence
of StatusView queries against the store leaves Jobs, JobItems and the pause
flag unchanged. -/
theorem claim_C5_status_reads_pure :
    (∀ (q : StatusQuery) (s : Store), (runStatusQuery q s).2 = s) ∧
    (∀ (qs : List StatusQuery) (s : Store), runStatusQueries qs s = s) ∧
    fetchActiveJobs.method = HttpMethod.GET ∧ fetchActiveJobs.body = none ∧
    fetchActiveJobItems.method = HttpMethod.GET ∧ fetchActiveJobItems.body = none ∧
    (∀ limit offset : Int,
      (fetchJobHistoryItems limit offset).method = HttpMethod.GET ∧
      (fetchJobHistoryItems limit offset).body = none) ∧
    (∀ limit offset : Int,
      (fetchJobHistory limit offset).method = HttpMethod.GET ∧
      (fetchJobHistory limit offset).body = none) := by
  refine ⟨?_, ?_, rfl, rfl, rfl, rfl, fun _ _ => ⟨rfl, rfl⟩, fun _ _ => ⟨rfl, rfl⟩⟩
  · intro q s
    cases q <;> rfl
  · intro qs
    induction qs with
    | nil => intro s; rfl
    | cons q rest ih =>
      intro s
      show runStatusQueries rest (runStatusQuery q s).2 = s
      cases q <;> exact ih s

/-- Claim C6: the control operation reads or sets the global pause flag —
reading is a GET of /jobs/control returning {paused}, setting is a POST with
JSON body {paused} whose response carries the resulting flag, and the queue
panel adopts the returned paused value (the negation of what it displayed)
as the new state it displays. -/
theorem claim_C6_control_contract :
    fetchQueueState =
      { method := HttpMethod.GET, path := "/jobs/control", body := none } ∧
    (∀ b : Bool,
      updateQueueState b =
        { method := HttpMethod.POST, path := "/jobs/control"
          body := some (Json.obj [("paused", Json.bool b)]) }) ∧
    (∀ s : Store, controlGet s = { paused := s.paused }) ∧
    (∀ (b : Bool) (s : Store),
      (controlPost b s).1.paused = b ∧ (controlPost b s).2.paused = b) ∧
    (∀ (displayed : Bool) (s : Store),
      (toggleQueuePause displayed s).1 = (toggleQueuePause displayed s).2.paused ∧
      (toggleQueuePause displayed s).1 = !displayed) :=
  ⟨rfl, fun _ => rfl, fun _ => rfl, fun _ _ => ⟨rfl, rfl⟩, fun _ _ => ⟨rfl, rfl⟩⟩

/-- Claim C7 counterexample: when the returned counts are both zero, the
queue panel does not report them — it shows the fixed notice
"No queued items to clear." rather than the count-bearing message. -/
theorem claim_C7_counterexample :
    handleClearQueueNotice { canceled_jobs := 0, canceled_items := 0 } =
      "No queued items to clear." ∧
    handleClearQueueNotice { canceled_jobs := 0, canceled_items := 0 } ≠
      queueClearedMessage 0 0 :=
  ⟨rfl, by decide⟩

/-- Claim C7 (amended): ClearQueue is exposed as a DELETE returning the pair
{canceled_jobs, canceled_items} and ClearHistory as a DELETE returning
{deleted}; the queue panel reports exactly the returned canceled_jobs and
canceled_items counts whenever at least one of them is nonzero, and reports
the fixed notice "No queued items to clear." when both are zero. -/
theorem claim_C7_clear_contract :
    clearJobQueue =
      { method := HttpMethod.DELETE, path := "/jobs/queue", body := none } ∧
    clearJobHistory =
      { method := HttpMethod.DELETE, path := "/jobs/history", body := none } ∧
    (∀ r : ClearQueueResult, r.canceled_jobs ≠ 0 ∨ r.canceled_items ≠ 0 →
      handleClearQueueNotice r =
        queueClearedMessage r.canceled_jobs r.canceled_items) ∧
    (∀ r : ClearQueueResult, r.canceled_jobs = 0 → r.canceled_items = 0 →
      handleClearQueueNotice r = "No queued items to clear.") ∧
    (∀ s : Store,
      (clearQueueStore s).2.2 =
        s.items.countP (fun it => it.status == ItemStatus.pending)) := by
  refine ⟨rfl, rfl, ?_, ?_, fun _ => rfl⟩
  · intro r hr
    rcases hr with h | h <;> simp [handleClearQueueNotice, h]
  · intro r h1 h2
    simp [handleClearQueueNotice, h1, h2]

/-- Witness for C7 at concrete results: nonzero counts are reported
verbatim, zero counts yield the no-op notice. -/
theorem claim_C7_witness :
    handleClearQueueNotice { canceled_jobs := 2, canceled_items := 3 } =
      queueClearedMessage 2 3 ∧
    handleClearQueueNotice { canceled_jobs := 0, canceled_items := 0 } =
      "No queued items to clear." :=
  ⟨claim_C7_clear_contract.2.2.1 { canceled_jobs := 2, canceled_items := 3 }
      (Or.inl (by decide)),
   claim_C7_clear_contract.2.2.2.1 { canceled_jobs := 0, canceled_items := 0 } rfl rfl⟩

/-- Claim C8 counterexample: an ok (status 200) response whose body is not
valid JSON makes the `request` call raise (the rejection of
`response.json()`), so "raises exactly when the status is not ok" fails as
stated. -/
theorem claim_C8_counterexample :
    respOk { status := 200, statusText := "OK", body := none } = true ∧
    request { status := 200, statusText := "OK", body := none } =
      Except.error RequestError.jsonParseError :=
  ⟨rfl, rfl⟩

/-- Claim C8 (amended): for every call made through request(), a non-ok
response raises an error whose message carries the numeric HTTP status; an
ok response whose body is valid JSON returns the parsed body; and an ok
response whose body is not valid JSON raises a JSON parse error instead of
returning a result. -/
theorem claim_C8_request_contract (r : HttpResponse) :
    (respOk r = false →
      ∃ rest : String,
        request r = Except.error (RequestError.httpError
          ("API error " ++ toString r.status ++ ": " ++ rest))) ∧
    (∀ d : Json, r.body = some d → respOk r = true → request r = Except.ok d) ∧
    (r.body = none → respOk r = true →
      request r = Except.error RequestError.jsonParseError) := by
  refine ⟨?_, ?_, ?_⟩
  · intro hok
    unfold request
    rw [if_neg (by rw [hok]; exact Bool.false_ne_true)]
    unfold safeErrorMessage
    cases hd : detailOf r.body with
    | some d => exact ⟨jsToString d, rfl⟩
    | none => exact ⟨r.statusText, rfl⟩
  · intro d hb hok
    unfold request
    rw [if_pos hok, hb]
  · intro hb hok
    unfold request
    rw [if_pos hok, hb]

/-- Witness for C8 at concrete responses: a 404 raises with the status in
the message, a 200 with a JSON body returns it, a 200 with an invalid body
raises a parse error. -/
theorem claim_C8_witness :
    (∃ rest : String,
      request { status := 404, statusText := "Not Found", body := none } =
        Except.error (RequestError.httpError
          ("API error " ++ toString (404 : Nat) ++ ": " ++ rest))) ∧
    request { status := 200, statusText := "OK", body := some (Json.num 7) } =
      Except.ok (Json.num 7) ∧
    request { status := 204, statusText := "No Content", body := none } =
      Except.error RequestError.jsonParseError :=
  ⟨(claim_C8_request_contract _).1 rfl,
   (claim_C8_request_contract _).2.1 (Json.num 7) rfl rfl,
   (claim_C8_request_contract _).2.2 rfl rfl⟩

/-- Claim C9 counterexample: the history page's poll callback re-fetches the
job-history items, not the active jobs or active items views — neither
/jobs/active nor /jobs/active/items is among the requests it issues. -/
theorem claim_C9_counterexample :
    loadHistoryRequests.map ApiRequest.path =
      ["/jobs/history/items?limit=200&offset=0"] ∧
    ¬ ("/jobs/active" ∈ loadHistoryRequests.map ApiRequest.path) ∧
    ¬ ("/jobs/active/items" ∈ loadHistoryRequests.map ApiRequest.path) := by
  refine ⟨by decide, by decide, by decide⟩

/-- Claim C9 (amended): polling clients re-fetch on a fixed interval while
mounted — the queue panel re-fetches the active jobs, active items and
queue-state views every 5000 ms, the history page re-fetches the
job-history items every 10000 ms — and after the component is destroyed the
poll timer is cleared, so a tick causes no request at all. -/
theorem claim_C9_polling_contract :
    layoutOnMount.pollTimer = some 5000 ∧
    historyOnMount.pollTimer = some 10000 ∧
    timerTick layoutOnMount refreshQueueRequests = refreshQueueRequests ∧
    refreshQueueRequests.map ApiRequest.path =
      ["/jobs/active", "/jobs/active/items", "/jobs/control"] ∧
    refreshQueueRequests.map ApiRequest.method =
      [HttpMethod.GET, HttpMethod.GET, HttpMethod.GET] ∧
    timerTick historyOnMount loadHistoryRequests = loadHistoryRequests ∧
    loadHistoryRequests = [fetchJobHistoryItems 200 0] ∧
    (∀ (t : TimerState) (reqs : List ApiRequest),
      (onDestroyTimer t).pollTimer = none ∧ timerTick (onDestroyTimer t) reqs = []) :=
  ⟨rfl, rfl, rfl, rfl, rfl, rfl, rfl, fun _ _ => ⟨rfl, rfl⟩⟩

/-- Claim C10: safeErrorMessage is total (a plain function to String) and
yields "API error {status}: {detail}" whenever the response body parses to a
JSON object containing a `detail` member, and
"API error {status}: {statusText}" in every other case — including when the
body is not valid JSON. -/
theorem claim_C10_safeErrorMessage_total (r : HttpResponse) :
    (∀ (fields : List (String × Json)) (d : Json),
      r.body = some (Json.obj fields) → fields.lookup "detail" = some d →
      safeErrorMessage r = "API error " ++ toString r.status ++ ": " ++ jsToString d) ∧
    (¬(∃ (fields : List (String × Json)) (d : Json),
        r.body = some (Json.obj fields) ∧ fields.lookup "detail" = some d) →
      safeErrorMessage r = "API error " ++ toString r.status ++ ": " ++ r.statusText) := by
  constructor
  · intro fields d hb hl
    have hd : detailOf r.body = some d := by
      rw [hb]
      exact hl
    unfold safeErrorMessage
    rw [hd]
  · intro hno
    unfold safeErrorMessage
    cases hb : r.body with
    | none => rfl
    | some j =>
      cases j with
      | null => rfl
      | bool b => rfl
      | num n => rfl
      | str s => rfl
      | arr elems => rfl
      | obj fields =>
        cases hl : fields.lookup "detail" with
        | none => simp [detailOf, hl]
        | some d => exact absurd ⟨fields, d, hb, hl⟩ hno

/-- Witness for C10 at concrete responses: a body with a detail member
yields the detail form, a non-JSON body yields the statusText form. -/
theorem claim_C10_witness :
    safeErrorMessage
      { status := 422, statusText := "Unprocessable Entity"
        body := some (Json.obj [("detail", Json.str "ids must not be empty")]) } =
      "API error " ++ toString (422 : Nat) ++ ": " ++
        jsToString (Json.str "ids must not be empty") ∧
    safeErrorMessage { status := 500, statusText := "Internal Server Error", body := none } =
      "API error " ++ toString (500 : Nat) ++ ": " ++ "Internal Server Error" :=
  ⟨(claim_C10_safeErrorMessage_total _).1 _ _ rfl rfl,
   (claim_C10_safeErrorMessage_total _).2
     (by rintro ⟨fields, d, hb, -⟩; simp at hb)⟩
